import Mathlib

/-!
Verification of the file-system snapshot store (`fileSystemStore.ts`) and the
tree walker (`visitHandles` in `utilities.ts`).

The store keeps a module-level mapping `fileSystem : Record<string, FileSystemHandle>`,
a filtered-view cache `filteredFileSystemsCache : Map<Filter, FileSystem>`, a listener
registry, and an `initialized` flag.  We embed this state as `StoreState`, the JS
`Record`/`Map` as association lists (`recGet`/`recSet`/`recErase`, which reproduce
JS insertion-order semantics: overwriting keeps the original position, fresh keys
append), and each async store operation as a pure function from its backing-storage
responses (probe results, write outcomes) and the pre-state to a result, a post-state,
and the list of `notifyFileSystemListeners` calls it performs.
-/

/-- Kind tag of a `FileSystemHandle` (`handle.kind` in the source). -/
inductive HKind where
  | file
  | directory
deriving DecidableEq, Repr

/-- Embedding of a backing-storage handle: its kind tag, its `name` property, and
whether it exposes the optional `move` capability
(`"move" in handle && typeof handle.move === "function"`). -/
structure Handle where
  kind : HKind
  name : String
  hasMove : Bool
deriving DecidableEq, Repr

/-- `isFileHandle` from `utilities.ts`: `handle.kind === "file"`. -/
def isFileHandle (h : Handle) : Bool :=
  h.kind = HKind.file

/-- `isDirectoryHandle` from `utilities.ts`: `handle.kind === "directory"`. -/
def isDirectoryHandle (h : Handle) : Bool :=
  h.kind = HKind.directory

/-- A thrown JS error: `.msg s` is `new Error(s)`; `.backing s` is a propagated
backing-storage failure (for example a `DOMException` other than `NotFoundError`). -/
inductive JsErr where
  | msg (s : String)
  | backing (s : String)
deriving DecidableEq, Repr

/-- Association-list lookup, embedding `record[key]` / `map.get(key)`. -/
def recGet {κ α : Type} [DecidableEq κ] : List (κ × α) → κ → Option α
  | [], _ => none
  | e :: rest, k => if e.1 = k then some e.2 else recGet rest k

/-- Association-list update, embedding `{...record, [key]: v}` / `map.set(key, v)`:
an existing key is overwritten in place (JS keeps the original insertion position),
a fresh key is appended. -/
def recSet {κ α : Type} [DecidableEq κ] (l : List (κ × α)) (k : κ) (v : α) :
    List (κ × α) :=
  if (recGet l k).isSome then
    l.map (fun e => if e.1 = k then (k, v) else e)
  else
    l ++ [(k, v)]

/-- Association-list deletion, embedding `const { [key]: _, ...rest } = record`
and `delete record[key]`. -/
def recErase {κ α : Type} [DecidableEq κ] (l : List (κ × α)) (k : κ) :
    List (κ × α) :=
  l.filter (fun e => ¬ e.1 = k)

/-- The in-memory path-to-handle mapping (`FileSystem` in the source),
in JS key insertion order. -/
abbrev FileSystem := List (String × Handle)

/-- Index of the last `'/'` in a character list, if any
(JS `path.lastIndexOf("/")`, restricted to the found case). -/
def lastSlashIdx : List Char → Option Nat
  | [] => none
  | c :: cs =>
    match lastSlashIdx cs with
    | some i => some (i + 1)
    | none => if c = '/' then some 0 else none

/-- `path.slice(0, path.lastIndexOf("/"))`: everything before the last `'/'`.
When there is no `'/'`, `lastIndexOf` is `-1` and `slice(0, -1)` drops the final
character. -/
def jsParent (s : String) : String :=
  match lastSlashIdx s.data with
  | some i => String.mk (s.data.take i)
  | none => String.mk (s.data.take (s.data.length - 1))

/-- The store's module-level mutable state: the authoritative mapping, the
filtered-view cache (filters are identified by a numeric id, standing for the JS
`Map`'s function-identity keys), and the `initialized` flag. -/
structure StoreState where
  fileSystem : FileSystem
  cache : List (Nat × FileSystem)
  initialized : Bool
deriving DecidableEq, Repr

instance {ε α : Type} [DecidableEq ε] [DecidableEq α] : DecidableEq (Except ε α) :=
  fun x y =>
    match x, y with
    | .ok a, .ok b =>
      if h : a = b then isTrue (by rw [h])
      else isFalse (by intro hc; cases hc; exact h rfl)
    | .ok _, .error _ => isFalse (by intro hc; cases hc)
    | .error _, .ok _ => isFalse (by intro hc; cases hc)
    | .error e, .error f =>
      if h : e = f then isTrue (by rw [h])
      else isFalse (by intro hc; cases hc; exact h rfl)

/-- Outcome of one store operation: the returned value or thrown error, the
post-state, and the `notifyFileSystemListeners` calls made (each carrying its
`changedPaths` argument, `none` for a call with no argument). -/
structure OpOut where
  res : Except JsErr String
  state : StoreState
  notifs : List (Option (List String))
deriving DecidableEq, Repr

/-- `notifyFileSystemListeners(changedPaths?)`: given the listener registry
(identity, optional filter) and the optional changed-path array, returns the
identities of the listeners that are invoked.  Mirrors the source:
`if (changedPaths && filter) { if (changedPaths.some(filter)) listener(); } else listener();`
(note a present-but-empty array is truthy in JS, as `some ps` is here). -/
def notifyFileSystemListeners (ls : List (Nat × Option (String → Bool)))
    (changedPaths : Option (List String)) : List Nat :=
  ls.filterMap (fun e =>
    match changedPaths, e.2 with
    | some ps, some f => if ps.any f then some e.1 else none
    | _, _ => some e.1)

/-- `Object.entries(fileSystem)` filtered by a predicate, in entry order: the
sub-mapping `getFileSystem` computes on a cache miss. -/
def filterFS (f : String → Bool) (fs : FileSystem) : FileSystem :=
  fs.filter (fun e => f e.1)

/-- `getFileSystem(options?)`: with no filter returns the authoritative mapping;
with filter id `i` (whose predicate is `env i`) returns the cached view when
present, otherwise computes, caches, and returns the filtered sub-mapping. -/
def getFileSystem (env : Nat → String → Bool) (st : StoreState) :
    Option Nat → FileSystem × StoreState
  | none => (st.fileSystem, st)
  | some i =>
    match recGet st.cache i with
    | some cached => (cached, st)
    | none =>
      let v := filterFS (env i) st.fileSystem
      (v, { st with cache := recSet st.cache i v })

/-- Result of the existence probe `directory.getFileHandle(name, {create: false})`
(or `getDirectoryHandle`): the existing handle, a `NotFoundError`, or some other
failure. -/
inductive ProbeResult where
  | found (h : Handle)
  | notFound
  | failure (e : JsErr)
deriving DecidableEq, Repr

/-- `createFile(directoryPath, name, data?)`.  `probe` is the backing response to
the existence probe, `newFile` the handle returned by the creating
`getFileHandle(name, {create: true})`, `hasData` whether a `data` argument was
passed, and `writeResult` the outcome of the truncate/write/close sequence
(`some e` = the write threw `e`). -/
def createFile (st : StoreState) (directoryPath name : String)
    (probe : ProbeResult) (newFile : Handle) (hasData : Bool)
    (writeResult : Option JsErr) : OpOut :=
  match recGet st.fileSystem directoryPath with
  | none => ⟨.error (.msg "No directory at path"), st, []⟩
  | some directory =>
    if isDirectoryHandle directory then
      match probe with
      | .found existingFile =>
        ⟨.error (.msg (existingFile.name ++ " already exists")), st, []⟩
      | .failure e => ⟨.error e, st, []⟩
      | .notFound =>
        let newPath := directoryPath ++ "/" ++ name
        let st' : StoreState :=
          { st with fileSystem := recSet st.fileSystem newPath newFile, cache := [] }
        if hasData then
          match writeResult with
          | some e => ⟨.error e, st', []⟩
          | none => ⟨.ok newPath, st', [some [directoryPath, newPath]]⟩
        else
          ⟨.ok newPath, st', [some [directoryPath, newPath]]⟩
    else
      ⟨.error (.msg "No directory at path"), st, []⟩

/-- `createDirectory(directoryPath, name)`: symmetric to `createFile` without the
data-write step. -/
def createDirectory (st : StoreState) (directoryPath name : String)
    (probe : ProbeResult) (newDirectory : Handle) : OpOut :=
  match recGet st.fileSystem directoryPath with
  | none => ⟨.error (.msg "No directory at path"), st, []⟩
  | some directory =>
    if isDirectoryHandle directory then
      match probe with
      | .found existingDirectory =>
        ⟨.error (.msg (existingDirectory.name ++ " already exists")), st, []⟩
      | .failure e => ⟨.error e, st, []⟩
      | .notFound =>
        let newPath := directoryPath ++ "/" ++ name
        ⟨.ok newPath,
         { st with fileSystem := recSet st.fileSystem newPath newDirectory,
                   cache := [] },
         [some [directoryPath, newPath]]⟩
    else
      ⟨.error (.msg "No directory at path"), st, []⟩

/-- `renameFile(filePath, newName)`.  After a successful backing `move(newName)`
the handle's `name` property is the new name, so the re-keyed entry stores the
renamed handle. -/
def renameFile (st : StoreState) (filePath newName : String) : OpOut :=
  if filePath = "" then
    ⟨.error (.msg "Cannot rename file system root"), st, []⟩
  else
    match recGet st.fileSystem filePath with
    | none => ⟨.error (.msg "No file at path"), st, []⟩
    | some file =>
      if isFileHandle file then
        if file.hasMove then
          let directoryPath := jsParent filePath
          let newFilePath := directoryPath ++ "/" ++ newName
          ⟨.ok newFilePath,
           { st with
              fileSystem :=
                recSet (recErase st.fileSystem filePath) newFilePath
                  { file with name := newName },
              cache := [] },
           [some [directoryPath, filePath, newFilePath]]⟩
        else
          ⟨.ok filePath, st, []⟩
      else
        ⟨.error (.msg "No file at path"), st, []⟩

/-- `renameDirectory(directoryPath, newName)`: note the source re-keys only the
renamed entry itself; descendant entries are left untouched. -/
def renameDirectory (st : StoreState) (directoryPath newName : String) : OpOut :=
  if directoryPath = "" then
    ⟨.error (.msg "Cannot rename file system root"), st, []⟩
  else
    match recGet st.fileSystem directoryPath with
    | none => ⟨.error (.msg "No directory at path"), st, []⟩
    | some directory =>
      if isDirectoryHandle directory then
        if directory.hasMove then
          let parentDirectoryPath := jsParent directoryPath
          let newDirectoryPath := parentDirectoryPath ++ "/" ++ newName
          ⟨.ok newDirectoryPath,
           { st with
              fileSystem :=
                recSet (recErase st.fileSystem directoryPath) newDirectoryPath
                  { directory with name := newName },
              cache := [] },
           [some [parentDirectoryPath, directoryPath, newDirectoryPath]]⟩
        else
          ⟨.ok directoryPath, st, []⟩
      else
        ⟨.error (.msg "No directory at path"), st, []⟩

/-- `moveFile(filePath, directoryPath)`: a backing `move(directory)` keeps the
file's name, and the new key is `directoryPath + "/" + file.name`.  Every failed
guard after the root check falls through to `return filePath`. -/
def moveFile (st : StoreState) (filePath directoryPath : String) : OpOut :=
  if filePath = "" then
    ⟨.error (.msg "Cannot move file system root"), st, []⟩
  else
    match recGet st.fileSystem filePath, recGet st.fileSystem directoryPath with
    | some file, some directory =>
      if isFileHandle file ∧ isDirectoryHandle directory then
        if file.hasMove then
          let oldDirectoryPath := jsParent filePath
          let newFilePath := directoryPath ++ "/" ++ file.name
          ⟨.ok newFilePath,
           { st with
              fileSystem := recSet (recErase st.fileSystem filePath) newFilePath file,
              cache := [] },
           [some [oldDirectoryPath, filePath, directoryPath, newFilePath]]⟩
        else
          ⟨.ok filePath, st, []⟩
      else
        ⟨.ok filePath, st, []⟩
    | _, _ => ⟨.ok filePath, st, []⟩

/-- `removeEntry(path, options?)`.  `backendErr` is the outcome of the backing
`directory.removeEntry` call (`some e` = it threw `e`).  The result carries no
value, so a successful run is modelled as `.ok ""`. -/
def removeEntry (st : StoreState) (path : String) (recursive : Bool)
    (backendErr : Option JsErr) : OpOut :=
  if path = "" then
    ⟨.error (.msg "Cannot remove file system root"), st, []⟩
  else
    let directoryPath := jsParent path
    match recGet st.fileSystem directoryPath with
    | none => ⟨.error (.msg "No directory at path"), st, []⟩
    | some directory =>
      if isDirectoryHandle directory then
        match backendErr with
        | some e => ⟨.error e, st, []⟩
        | none =>
          let removedPaths :=
            path ::
              (if recursive then
                (st.fileSystem.map Prod.fst).filter
                  (fun k => k.startsWith (path ++ "/"))
              else [])
          ⟨.ok "",
           { st with
              fileSystem := removedPaths.foldl (fun acc rp => recErase acc rp)
                st.fileSystem,
              cache := [] },
           [some (directoryPath :: removedPaths)]⟩
      else
        ⟨.error (.msg "No directory at path"), st, []⟩

/-- Outcome of `initializeFileSystemIfNeeded()`: post-state, whether a walk of
the backing root was performed, and the notify calls made. -/
structure InitOut where
  state : StoreState
  didWalk : Bool
  notifs : List (Option (List String))
deriving DecidableEq, Repr

/-- `initializeFileSystemIfNeeded()`, with the mapping produced by the walk of
the backing root abstracted as the parameter `walk`.  A second call returns
immediately because `initialized` was set before any suspension point. -/
def initializeFileSystemIfNeeded (walk : FileSystem) (st : StoreState) : InitOut :=
  if st.initialized then
    ⟨st, false, []⟩
  else
    ⟨{ fileSystem := walk, cache := [], initialized := true }, true, [none]⟩

/-- A backing hierarchy as the walker sees it: each node is a file or a directory
with the child sequence its async iterator yields, in yield order. -/
inductive HTree where
  | file (name : String)
  | dir (name : String) (children : List HTree)

/-- The `name` property of a backing handle. -/
def HTree.name : HTree → String
  | .file n => n
  | .dir n _ => n

mutual
/-- The `(path, handle.name)` pairs with which `visitHandles(root, visitor)`
eventually invokes `visitor`, disregarding timing.  Mirrors the source exactly:
the root is visited at `root.name`, and each child subtree's invocations pass
through the wrapper `(path, handle) => visitor(handle.name + "/" + path, handle)`,
which prepends the visited handle's OWN name, once per nesting level. -/
def visitCalls : HTree → List (String × String)
  | .file n => [(n, n)]
  | .dir n cs => (n, n) :: visitCallsList cs
/-- `visitCalls` for each child in sequence, each invocation rewritten by the
child-level wrapper from the source. -/
def visitCallsList : List HTree → List (String × String)
  | [] => []
  | c :: cs =>
    ((visitCalls c).map (fun pr => (pr.2 ++ "/" ++ pr.1, pr.2))) ++ visitCallsList cs
end

/-- An observable event of a `visitHandles` run: a visitor invocation (identified
by the visited handle's name) or the resolution of the promise returned by the
top-level call. -/
inductive Ev where
  | visit (name : String)
  | resolve
deriving DecidableEq, Repr

/-- One suspended activation of `visitHandles`, parked at its
`for await (const child of root.values())` loop: the children not yet yielded,
and whether this activation is the top-level call (whose completion resolves the
returned promise). -/
structure WalkFrame where
  rest : List HTree
  isRoot : Bool

/-- Cooperative microtask scheduler for `visitHandles`, with every backing
iterator `next()` resolving in FIFO request order (uniform latency).  The front
frame's awaited `next()` resolves: a yielded child is visited synchronously; a
directory child requests its own first `next()` (enqueuing a new frame) before
the parent requests its next sibling (re-enqueuing itself) — the source does NOT
await the recursive `visitHandles(child, ...)` call, so the parent continues
past it.  An exhausted frame returns; only the top-level activation's return is
observable, as the resolution of the returned promise. -/
def runWalk : Nat → List WalkFrame → List Ev
  | 0, _ => []
  | _ + 1, [] => []
  | fuel + 1, f :: q =>
    match f.rest with
    | [] => (if f.isRoot then [Ev.resolve] else []) ++ runWalk fuel q
    | c :: cs =>
      Ev.visit c.name ::
        match c with
        | .dir _ gs => runWalk fuel (q ++ [⟨gs, false⟩, ⟨cs, f.isRoot⟩])
        | .file _ => runWalk fuel (q ++ [⟨cs, f.isRoot⟩])

/-- The event trace of `await visitHandles(root, visitor)`: the root is visited
synchronously; a file root resolves at once, a directory root suspends at its
child loop and the scheduler takes over. -/
def visitTrace (t : HTree) (fuel : Nat) : List Ev :=
  match t with
  | .file n => [Ev.visit n, Ev.resolve]
  | .dir n cs => Ev.visit n :: runWalk fuel [⟨cs, true⟩]

/-- Decidable check of invariant I1 over a concrete mapping: every non-root key's
parent key (`path.slice(0, path.lastIndexOf("/"))`) is present and maps to a
directory handle. -/
def i1check (fs : FileSystem) : Bool :=
  fs.all (fun e =>
    if e.1 = "" then true
    else
      match recGet fs (jsParent e.1) with
      | some h => isDirectoryHandle h
      | none => false)

/-- One store mutation together with the backing-storage responses it consumes:
ranges over every exported operation that can change the mapping. -/
inductive Op where
  | createFileOp (directoryPath name : String) (probe : ProbeResult)
      (newFile : Handle) (hasData : Bool) (writeResult : Option JsErr)
  | createDirectoryOp (directoryPath name : String) (probe : ProbeResult)
      (newDirectory : Handle)
  | renameFileOp (filePath newName : String)
  | renameDirectoryOp (directoryPath newName : String)
  | moveFileOp (filePath directoryPath : String)
  | removeEntryOp (path : String) (recursive : Bool) (backendErr : Option JsErr)
  | initializeOp (walk : FileSystem)

/-- The store state after running one operation. -/
def applyOpState : Op → StoreState → StoreState
  | .createFileOp d n p nf hd wr, st => (createFile st d n p nf hd wr).state
  | .createDirectoryOp d n p nd, st => (createDirectory st d n p nd).state
  | .renameFileOp p n, st => (renameFile st p n).state
  | .renameDirectoryOp p n, st => (renameDirectory st p n).state
  | .moveFileOp p d, st => (moveFile st p d).state
  | .removeEntryOp p r e, st => (removeEntry st p r e).state
  | .initializeOp w, st => (initializeFileSystemIfNeeded w st).state

/-- Cache coherence (invariant I4): every entry of the filtered-view cache equals
the filter's sub-mapping recomputed from the current authoritative mapping. -/
def cacheCoherent (env : Nat → String → Bool) (st : StoreState) : Prop :=
  ∀ i v, recGet st.cache i = some v → v = filterFS (env i) st.fileSystem

/-- Concrete fixture: the backing root directory handle (OPFS root, name `""`). -/
def rootH : Handle := ⟨HKind.directory, "", true⟩

/-- Concrete fixture: a movable directory handle named `docs`. -/
def docsH : Handle := ⟨HKind.directory, "docs", true⟩

/-- Concrete fixture: a file handle named `a.txt` without the move capability. -/
def noteH : Handle := ⟨HKind.file, "a.txt", false⟩

/-- Concrete fixture: a file handle named `m.txt` without the move capability. -/
def mFileH : Handle := ⟨HKind.file, "m.txt", false⟩

/-- Concrete fixture: a directory handle named `d` without the move capability. -/
def dNoMoveH : Handle := ⟨HKind.directory, "d", false⟩

/-- Concrete fixture: a freshly created file handle named `b.txt`. -/
def newFileH : Handle := ⟨HKind.file, "b.txt", true⟩

/-- Concrete fixture: a mapping holding the root, a movable directory `/docs`,
and a file `/docs/a.txt` inside it. -/
def st1 : StoreState := ⟨[("", rootH), ("/docs", docsH), ("/docs/a.txt", noteH)], [], true⟩

/-- Concrete fixture: a mapping holding the root and a moveless file `/m.txt`. -/
def stm : StoreState := ⟨[("", rootH), ("/m.txt", mFileH)], [], true⟩

/-- Concrete fixture: a mapping holding the root and a moveless directory `/d`. -/
def stx : StoreState := ⟨[("", rootH), ("/d", dNoMoveH)], [], true⟩

/-- Concrete fixture: a mapping holding only the root directory. -/
def stRoot : StoreState := ⟨[("", rootH)], [], true⟩

/-- Concrete fixture: a backing hierarchy that is a three-deep chain
`r / d1 / d2 / f`. -/
def chainT : HTree := .dir "r" [.dir "d1" [.dir "d2" [.file "f"]]]

/-- Concrete fixture: a filter predicate selecting paths under `/docs`. -/
def demoFilter : String → Bool := fun p => p.startsWith "/docs"

/-- Concrete fixture: a listener registry with one `/docs`-filtered listener
(id 0) and one unfiltered listener (id 1). -/
def demoListeners : List (Nat × Option (String → Bool)) :=
  [(0, some demoFilter), (1, none)]

/-- Concrete fixture: a filter environment mapping every filter id to
`demoFilter`. -/
def envW : Nat → String → Bool := fun _ => demoFilter

/-- Overwriting an existing key in place leaves it retrievable with the new
value. -/
theorem recGet_map_self {κ α : Type} [DecidableEq κ] (k : κ) (v : α) :
    ∀ l : List (κ × α), (recGet l k).isSome = true →
      recGet (l.map (fun e => if e.1 = k then (k, v) else e)) k = some v
  | [], hs => by simp [recGet] at hs
  | e :: t, hs => by
    by_cases he : e.1 = k
    · simp [recGet, he]
    · simp [recGet, he] at hs ⊢
      exact recGet_map_self k v t hs

/-- Appending a fresh key makes it retrievable when it was absent before. -/
theorem recGet_append_right {κ α : Type} [DecidableEq κ] (k : κ) (v : α) :
    ∀ l : List (κ × α), recGet l k = none →
      recGet (l ++ [(k, v)]) k = some v
  | [], _ => by simp [recGet]
  | e :: t, hs => by
    by_cases he : e.1 = k
    · simp [recGet, he] at hs
    · simp [recGet, he] at hs ⊢
      exact recGet_append_right k v t hs

/-- `record[k]` after `{...record, [k]: v}` yields `v`. -/
theorem recGet_recSet_self {κ α : Type} [DecidableEq κ] (l : List (κ × α))
    (k : κ) (v : α) : recGet (recSet l k v) k = some v := by
  unfold recSet
  by_cases hs : (recGet l k).isSome
  · rw [if_pos hs]
    exact recGet_map_self k v l hs
  · rw [if_neg hs]
    exact recGet_append_right k v l (by
      cases hrec : recGet l k <;> simp_all)

/-- In a registry with no duplicate keys, a key determines its value. -/
theorem nodupKeys_eq {α : Type} :
    ∀ {l : List (Nat × α)}, (l.map Prod.fst).Nodup →
      ∀ {a : Nat} {b c : α}, (a, b) ∈ l → (a, c) ∈ l → b = c
  | [], _, _, _, _, h1, _ => by cases h1
  | e :: t, hnd, a, b, c, h1, h2 => by
    rw [List.map_cons, List.nodup_cons] at hnd
    rcases List.mem_cons.mp h1 with he1 | ht1
    · rcases List.mem_cons.mp h2 with he2 | ht2
      · exact (Prod.ext_iff.mp (he1.trans he2.symm)).2
      · exfalso
        have ha : e.1 = a := by rw [← he1]
        have hmem : a ∈ t.map Prod.fst := by
          simpa using List.mem_map_of_mem Prod.fst ht2
        exact hnd.1 (by rw [ha]; exact hmem)
    · rcases List.mem_cons.mp h2 with he2 | ht2
      · exfalso
        have ha : e.1 = a := by rw [← he2]
        have hmem : a ∈ t.map Prod.fst := by
          simpa using List.mem_map_of_mem Prod.fst ht1
        exact hnd.1 (by rw [ha]; exact hmem)
      · exact nodupKeys_eq hnd.2 ht1 ht2

/-- An empty filtered-view cache is coherent. -/
theorem cacheCoherent_of_empty (env : Nat → String → Bool) (st : StoreState)
    (h : st.cache = []) : cacheCoherent env st := by
  intro i v hv
  rw [h] at hv
  simp [recGet] at hv

/-- Under a coherent cache, a filtered read returns exactly the sub-mapping
recomputed from scratch over the authoritative mapping, hit or miss. -/
theorem getFileSystem_eq_filter (env : Nat → String → Bool) (st : StoreState)
    (h : cacheCoherent env st) (i : Nat) :
    (getFileSystem env st (some i)).1 = filterFS (env i) st.fileSystem := by
  cases hc : recGet st.cache i with
  | none => simp [getFileSystem, hc]
  | some v =>
    simp [getFileSystem, hc]
    exact h i v hc

/-- Every operation either leaves both the mapping and the cache untouched
(failure and no-op branches) or ends with the cache cleared (every branch that
assigns `fileSystem` also runs `filteredFileSystemsCache.clear()`). -/
theorem applyOpState_cacheOK (op : Op) (st : StoreState) :
    (applyOpState op st).cache = st.cache ∧
      (applyOpState op st).fileSystem = st.fileSystem ∨
    (applyOpState op st).cache = [] := by
  cases op <;>
    simp only [applyOpState, createFile, createDirectory, renameFile,
      renameDirectory, moveFile, removeEntry, initializeFileSystemIfNeeded] <;>
    (repeat' split) <;> simp

/-- Every operation preserves cache coherence. -/
theorem cacheCoherent_applyOpState (env : Nat → String → Bool) (op : Op)
    (st : StoreState) (h : cacheCoherent env st) :
    cacheCoherent env (applyOpState op st) := by
  rcases applyOpState_cacheOK op st with ⟨hc, hf⟩ | hc
  · intro i v hv
    rw [hc] at hv
    rw [hf]
    exact h i v hv
  · exact cacheCoherent_of_empty env _ hc

/-- Claim C1: for every I1-satisfying mapping, a successful
`renameDirectory(path, newName)` re-keys every descendant of the renamed
directory under the new prefix so that I1 still holds.  The source re-keys only
the `/docs` entry itself: starting from the I1-satisfying mapping
`{"" ↦ root, "/docs" ↦ dir, "/docs/a.txt" ↦ file}`, a successful
`renameDirectory("/docs", "notes")` leaves `/docs/a.txt` keyed under the old
prefix (and nothing at `/notes/a.txt`), so I1 fails in the resulting mapping. -/
theorem renameDirectory_breaks_i1 :
    i1check st1.fileSystem = true ∧
    (renameDirectory st1 "/docs" "notes").res = Except.ok "/notes" ∧
    recGet (renameDirectory st1 "/docs" "notes").state.fileSystem "/docs/a.txt"
      = some noteH ∧
    recGet (renameDirectory st1 "/docs" "notes").state.fileSystem "/notes/a.txt"
      = none ∧
    i1check (renameDirectory st1 "/docs" "notes").state.fileSystem = false := by
  decide

/-- Claim C2, as stated: `moveFile(path, targetDirPath)` with `path` the root
`""` is claimed to be a silent no-op returning the original path.  The source
instead throws `new Error("Cannot move file system root")` before any other
check: at the concrete store `st1`, `moveFile("", "/docs")` produces the thrown
error and not the claimed `ok ""`. -/
theorem moveFile_root_throws :
    (moveFile st1 "" "/docs").res
      = Except.error (JsErr.msg "Cannot move file system root") ∧
    (moveFile st1 "" "/docs").res ≠ Except.ok "" := by
  decide

/-- Claim C2, amended: for every store state and target, `moveFile` on the root
path throws `"Cannot move file system root"`, leaving the state unchanged and
notifying no listener; the silent no-op behavior is reserved for the other
failure cases. -/
theorem moveFile_root_amended (st : StoreState) (d : String) :
    moveFile st "" d
      = ⟨Except.error (JsErr.msg "Cannot move file system root"), st, []⟩ := by
  unfold moveFile
  rw [if_pos rfl]

/-- Claim C3: the tree walker is claimed to hand the visitor, for each
descendant, the path `visitedAncestorPath ++ "/" ++ descendantName`.  The
source's wrapper instead prepends the descendant's OWN name
(`visitor(handle.name + "/" + path, handle)`), so for the hierarchy with root
named `""` containing one file `a.txt` the child is visited at `"a.txt/a.txt"`,
not at the ancestor-joined `"" ++ "/" ++ "a.txt"` = `"/a.txt"`. -/
theorem visitCalls_not_ancestor_joined :
    visitCalls (HTree.dir "" [HTree.file "a.txt"])
      = [("", ""), ("a.txt/a.txt", "a.txt")] ∧
    ("a.txt/a.txt" : String) ≠ "" ++ "/" ++ "a.txt" := by
  decide

/-- Claim C5: for a mutation with changed-path set `ps`, a listener registered
with filter `f` is invoked iff some path of `ps` satisfies `f`; a listener
registered without a filter is invoked on every notification, including a bulk
resync that passes no changed-path set (`cp = none`). -/
theorem notifyFileSystemListeners_spec (ls : List (Nat × Option (String → Bool)))
    (hnd : (ls.map Prod.fst).Nodup) (id : Nat) :
    (∀ f ps, (id, some f) ∈ ls →
      ((id ∈ notifyFileSystemListeners ls (some ps)) ↔ ps.any f = true)) ∧
    (∀ cp, (id, none) ∈ ls → id ∈ notifyFileSystemListeners ls cp) := by
  constructor
  · intro f ps hmem
    unfold notifyFileSystemListeners
    rw [List.mem_filterMap]
    constructor
    · rintro ⟨⟨a, b⟩, he, hde⟩
      cases b with
      | none =>
        simp at hde
        subst hde
        exact absurd (nodupKeys_eq hnd hmem he) (Option.some_ne_none f)
      | some g =>
        by_cases hg : ps.any g = true
        · simp [hg] at hde
          subst hde
          have hgf := Option.some.inj (nodupKeys_eq hnd he hmem)
          rw [← hgf]
          exact hg
        · simp [hg] at hde
    · intro hany
      exact ⟨(id, some f), hmem, by simp [hany]⟩
  · intro cp hmem
    unfold notifyFileSystemListeners
    rw [List.mem_filterMap]
    refine ⟨(id, none), hmem, ?_⟩
    cases cp <;> rfl

/-- Witness for C5: in the registry with listener 0 filtered on `/docs` paths
and unfiltered listener 1, listener 0's invocation on the changed set
`["/docs/a.txt"]` is equivalent to the filter matching, and listener 1 is
invoked on a bulk resync carrying no changed-path set. -/
theorem notifyFileSystemListeners_spec_witness :
    ((0 ∈ notifyFileSystemListeners demoListeners (some ["/docs/a.txt"])) ↔
      (["/docs/a.txt"].any demoFilter) = true) ∧
    1 ∈ notifyFileSystemListeners demoListeners none :=
  ⟨(notifyFileSystemListeners_spec demoListeners (by decide) 0).1 demoFilter
      ["/docs/a.txt"] (List.mem_cons_self _ _),
   (notifyFileSystemListeners_spec demoListeners (by decide) 1).2 none
      (List.mem_cons_of_mem _ (List.mem_cons_self _ _))⟩

/-- Claim C6: starting from a coherent filtered-view cache, every store
operation leaves the cache coherent (each mutating branch clears it first), so
the filtered view served after the operation equals the sub-mapping recomputed
from scratch over the post-operation authoritative mapping — the cache is never
served stale. -/
theorem mutation_never_serves_stale_cache (env : Nat → String → Bool) (op : Op)
    (st : StoreState) (h : cacheCoherent env st) (i : Nat) :
    cacheCoherent env (applyOpState op st) ∧
    (getFileSystem env (applyOpState op st) (some i)).1
      = filterFS (env i) (applyOpState op st).fileSystem := by
  have h2 := cacheCoherent_applyOpState env op st h
  exact ⟨h2, getFileSystem_eq_filter env _ h2 i⟩

/-- Witness for C6: after `createDirectory("", "docs")` on the root-only store,
whose empty cache is trivially coherent, the filtered read for filter id 0
equals the recomputed sub-mapping. -/
theorem mutation_never_serves_stale_cache_witness :
    cacheCoherent envW
      (applyOpState (Op.createDirectoryOp "" "docs" ProbeResult.notFound docsH)
        stRoot) ∧
    (getFileSystem envW
        (applyOpState (Op.createDirectoryOp "" "docs" ProbeResult.notFound docsH)
          stRoot) (some 0)).1
      = filterFS (envW 0)
          (applyOpState (Op.createDirectoryOp "" "docs" ProbeResult.notFound docsH)
            stRoot).fileSystem :=
  mutation_never_serves_stale_cache envW
    (Op.createDirectoryOp "" "docs" ProbeResult.notFound docsH) stRoot
    (cacheCoherent_of_empty envW stRoot rfl) 0

/-- Claim C7: `createFile(dirPath, name, data?)` throws `"No directory at path"`
when `dirPath` is absent from the mapping or maps to a non-directory handle;
throws `"<name> already exists"` when the existence probe finds the file in the
backing storage; and when the probe fails with not-found (the signal to create)
it inserts the new handle at `dirPath ++ "/" ++ name` and returns that path. -/
theorem createFile_spec (st : StoreState) (directoryPath name : String)
    (probe : ProbeResult) (newFile : Handle) (hasData : Bool) :
    (recGet st.fileSystem directoryPath = none →
      createFile st directoryPath name probe newFile hasData none
        = ⟨Except.error (JsErr.msg "No directory at path"), st, []⟩) ∧
    (∀ d, recGet st.fileSystem directoryPath = some d →
      ¬ d.kind = HKind.directory →
      createFile st directoryPath name probe newFile hasData none
        = ⟨Except.error (JsErr.msg "No directory at path"), st, []⟩) ∧
    (∀ d ex, recGet st.fileSystem directoryPath = some d →
      d.kind = HKind.directory → probe = ProbeResult.found ex →
      createFile st directoryPath name probe newFile hasData none
        = ⟨Except.error (JsErr.msg (ex.name ++ " already exists")), st, []⟩) ∧
    (∀ d, recGet st.fileSystem directoryPath = some d →
      d.kind = HKind.directory → probe = ProbeResult.notFound →
      (createFile st directoryPath name probe newFile hasData none).res
          = Except.ok (directoryPath ++ "/" ++ name) ∧
      recGet
          (createFile st directoryPath name probe newFile hasData none).state.fileSystem
          (directoryPath ++ "/" ++ name) = some newFile) := by
  refine ⟨?_, ?_, ?_, ?_⟩
  · intro h
    simp [createFile, h]
  · intro d hd hk
    simp [createFile, hd, isDirectoryHandle, hk]
  · intro d ex hd hk hp
    subst hp
    simp [createFile, hd, isDirectoryHandle, hk]
  · intro d hd hk hp
    subst hp
    cases hasData <;>
      simp [createFile, hd, isDirectoryHandle, hk, recGet_recSet_self]

/-- Witness for C7: on the root-only store, creating `b.txt` under `""` throws
when the probe finds an existing file, and with a not-found probe returns
`"" ++ "/" ++ "b.txt"` with the new handle inserted at that key. -/
theorem createFile_spec_witness :
    createFile stRoot "" "b.txt" (ProbeResult.found newFileH) newFileH false none
      = ⟨Except.error (JsErr.msg (newFileH.name ++ " already exists")), stRoot, []⟩ ∧
    (createFile stRoot "" "b.txt" ProbeResult.notFound newFileH false none).res
      = Except.ok ("" ++ "/" ++ "b.txt") ∧
    recGet
      (createFile stRoot "" "b.txt" ProbeResult.notFound newFileH false
        none).state.fileSystem ("" ++ "/" ++ "b.txt") = some newFileH :=
  ⟨(createFile_spec stRoot "" "b.txt" (ProbeResult.found newFileH) newFileH
      false).2.2.1 rootH newFileH (by decide) rfl rfl,
   (createFile_spec stRoot "" "b.txt" ProbeResult.notFound newFileH
      false).2.2.2 rootH (by decide) rfl rfl⟩

/-- Claim C8, as stated: it quantifies over EVERY non-root path whose handle
lacks the move capability and asserts all three of `renameFile`,
`renameDirectory`, `moveFile` are silent no-ops there.  For the moveless
DIRECTORY handle at `/d`, `renameFile("/d", "x")` is not a no-op: it throws
`"No file at path"` instead of returning `"/d"`. -/
theorem renameFile_moveless_directory_throws :
    recGet stx.fileSystem "/d" = some dNoMoveH ∧
    dNoMoveH.hasMove = false ∧
    ("/d" : String) ≠ "" ∧
    (renameFile stx "/d" "x").res = Except.error (JsErr.msg "No file at path") ∧
    (renameFile stx "/d" "x").res ≠ Except.ok "/d" := by
  decide

/-- Claim C8, amended: for a non-root path whose handle lacks the move
capability, each operation whose kind check the handle passes is a no-op — for
a file handle, `renameFile` and `moveFile` (any target) return the original
path with the state (mapping and cache) unchanged and no listener notified; for
a directory handle, likewise `renameDirectory`. -/
theorem moveless_handle_noop (st : StoreState) (p n d : String) (h : Handle)
    (hp : ¬ p = "") (hg : recGet st.fileSystem p = some h)
    (hm : h.hasMove = false) :
    (h.kind = HKind.file →
      renameFile st p n = ⟨Except.ok p, st, []⟩ ∧
      moveFile st p d = ⟨Except.ok p, st, []⟩) ∧
    (h.kind = HKind.directory →
      renameDirectory st p n = ⟨Except.ok p, st, []⟩) := by
  constructor
  · intro hk
    constructor
    · simp [renameFile, hp, hg, isFileHandle, hk, hm]
    · cases hd : recGet st.fileSystem d with
      | none => simp [moveFile, hp, hg, hd]
      | some dirH =>
        simp [moveFile, hp, hg, hd, isFileHandle, isDirectoryHandle, hk, hm]
  · intro hk
    simp [renameDirectory, hp, hg, isDirectoryHandle, hk, hm]

/-- Witness for C8 (amended): the moveless file `/m.txt` is returned unchanged
by `renameFile` and by `moveFile` toward the root directory, with no state
change and no notification. -/
theorem moveless_handle_noop_witness :
    renameFile stm "/m.txt" "x" = ⟨Except.ok "/m.txt", stm, []⟩ ∧
    moveFile stm "/m.txt" "" = ⟨Except.ok "/m.txt", stm, []⟩ :=
  (moveless_handle_noop stm "/m.txt" "x" "" mFileH (by decide) (by decide)
    rfl).1 rfl

/-- Claim C9: on a fresh process (`initialized = false`), the first
`initializeFileSystemIfNeeded` call walks the backing root into the mapping,
and a second call — whatever its walk would yield — performs no walk, changes
nothing, and notifies nobody, so calling twice equals calling once. -/
theorem initializeFileSystemIfNeeded_idempotent (walk walk2 : FileSystem)
    (st : StoreState) (h : st.initialized = false) :
    (initializeFileSystemIfNeeded walk st).didWalk = true ∧
    (initializeFileSystemIfNeeded walk st).state.fileSystem = walk ∧
    initializeFileSystemIfNeeded walk2 (initializeFileSystemIfNeeded walk st).state
      = ⟨(initializeFileSystemIfNeeded walk st).state, false, []⟩ := by
  simp [initializeFileSystemIfNeeded, h]

/-- Witness for C9: from the empty fresh state, the first call walks in the
root mapping and the second call is a no-op. -/
theorem initializeFileSystemIfNeeded_idempotent_witness :
    (initializeFileSystemIfNeeded [("", rootH)] ⟨[], [], false⟩).didWalk = true ∧
    (initializeFileSystemIfNeeded [("", rootH)] ⟨[], [], false⟩).state.fileSystem
      = [("", rootH)] ∧
    initializeFileSystemIfNeeded []
        (initializeFileSystemIfNeeded [("", rootH)] ⟨[], [], false⟩).state
      = ⟨(initializeFileSystemIfNeeded [("", rootH)] ⟨[], [], false⟩).state,
         false, []⟩ :=
  initializeFileSystemIfNeeded_idempotent [("", rootH)] [] ⟨[], [], false⟩ rfl

/-- Claim C10: in `createFile` with a data argument, the new entry is inserted
and the cache cleared before the write; if the truncate/write/close sequence
fails, `createFile` rethrows the write error with the new entry already in the
mapping, the cache cleared, and no listener notification emitted. -/
theorem createFile_failed_write (st : StoreState) (directoryPath name : String)
    (newFile d : Handle) (e : JsErr)
    (hd : recGet st.fileSystem directoryPath = some d)
    (hk : d.kind = HKind.directory) :
    (createFile st directoryPath name ProbeResult.notFound newFile true
        (some e)).res = Except.error e ∧
    recGet
        (createFile st directoryPath name ProbeResult.notFound newFile true
          (some e)).state.fileSystem
        (directoryPath ++ "/" ++ name) = some newFile ∧
    (createFile st directoryPath name ProbeResult.notFound newFile true
        (some e)).state.cache = [] ∧
    (createFile st directoryPath name ProbeResult.notFound newFile true
        (some e)).notifs = [] := by
  simp [createFile, hd, isDirectoryHandle, hk, recGet_recSet_self]

/-- Witness for C10: creating `b.txt` with data under the root when the write
fails leaves the thrown error, the inserted entry, a cleared cache, and no
notification. -/
theorem createFile_failed_write_witness :
    (createFile stRoot "" "b.txt" ProbeResult.notFound newFileH true
        (some (JsErr.backing "write failed"))).res
      = Except.error (JsErr.backing "write failed") ∧
    recGet
        (createFile stRoot "" "b.txt" ProbeResult.notFound newFileH true
          (some (JsErr.backing "write failed"))).state.fileSystem
        ("" ++ "/" ++ "b.txt") = some newFileH ∧
    (createFile stRoot "" "b.txt" ProbeResult.notFound newFileH true
        (some (JsErr.backing "write failed"))).state.cache = [] ∧
    (createFile stRoot "" "b.txt" ProbeResult.notFound newFileH true
        (some (JsErr.backing "write failed"))).notifs = [] :=
  createFile_failed_write stRoot "" "b.txt" newFileH rootH
    (JsErr.backing "write failed") (by decide) rfl

/-- Claim C4: when the promise returned by the tree walker resolves, every
descendant is claimed to have been visited, children before the next sibling
subtree.  The source never awaits the recursive `visitHandles(child, ...)`
call, so under the cooperative FIFO schedule the promise for the chain
`r / d1 / d2 / f` resolves after visiting `r`, `d1`, `d2` but BEFORE the
visitor ever sees `f`. -/
theorem visitTrace_resolves_before_leaf :
    visitTrace chainT 10
      = [Ev.visit "r", Ev.visit "d1", Ev.visit "d2", Ev.resolve, Ev.visit "f"] := by
  decide
